import Mathlib

/-!
Shallow embedding of the Budget-Air task-dispatcher service
(`src/app/main.py`, `src/app/models.py`, `src/app/db.py`) and proofs of the
spec claims about it.  Python dictionaries carrying JSON data are embedded
as association lists, machine integers as `Nat`, fallible Python code as
`Except`, and the shared `tasks` table as a `List TaskRow`.
-/

namespace BudgetAir

/-- A JSON value, as produced by `response.json()` / stored in a `JSONB`
column.  `Json.null` is Python's `None`. -/
inductive Json where
  | null : Json
  | bool (b : Bool) : Json
  | num (n : Int) : Json
  | str (s : String) : Json
  | arr (xs : List Json) : Json
  | obj (fields : List (String × Json)) : Json
  deriving Repr

/-- `ServiceType` enum from `src/app/models.py`. -/
inductive ServiceType where
  | user | payment | flight
  deriving Repr, DecidableEq

/-- `RequestStatus` enum from `src/app/models.py`. -/
inductive RequestStatus where
  | pending | processing | success | failed
  deriving Repr, DecidableEq

/-- `HttpMethod` enum from `src/app/models.py`. -/
inductive HttpMethod where
  | GET | POST | PUT | DELETE | PATCH | HEAD | OPTIONS
  deriving Repr, DecidableEq

/-- One row of the `tasks` table (`Task` in `src/app/models.py`).
`create_at` is the creation timestamp used for the claim-scan ordering
(the model keeps it abstract as a `Nat`); the `update_at` column exists in
the schema but no claim concerns it, so it is omitted here. -/
structure TaskRow where
  id : String
  task_id : String
  service : ServiceType
  status : RequestStatus
  route : String
  method : HttpMethod
  params : List (String × Json)
  result : Option Json
  create_at : Nat
  deriving Repr

/-- `TaskRequest` pydantic model from `src/app/models.py`; `method`
defaults to `POST` at parse time, so a parsed request always carries a
concrete method. -/
structure TaskRequest where
  service : ServiceType
  route : String
  params : List (String × Json)
  method : HttpMethod
  deriving Repr

/-! ## Module import model (claim C2)

`src/app/db.py` binds, at module level, exactly the names below (its
imports plus its five assignments).  `src/app/main.py` line 11 executes
`from .db import async_session, async_engine`. -/

/-- The module-level names bound by `src/app/db.py`: its four imported
names and the five assignments `DATABASE_URL`, `connect_args`, `engine`,
`session_local`, `async_session`. -/
def dbModuleNames : List String :=
  ["os", "create_engine", "sessionmaker", "AsyncSession",
   "DATABASE_URL", "connect_args", "engine", "session_local", "async_session"]

/-- The names `src/app/main.py` line 11 imports from `src/app/db.py`. -/
def mainImportsFromDb : List String := ["async_session", "async_engine"]

/-- Python `from M import a, b` semantics: the first requested name not
bound in module `M` raises `ImportError` naming it; otherwise the import
succeeds. -/
def fromImport (moduleNames requested : List String) : Except String Unit :=
  match requested.find? (fun n => !(moduleNames.contains n)) with
  | some n => .error n
  | none => .ok ()

/-- Whether evaluating the module `src/app/main.py` succeeds: its first
statements run its imports, so it loads only if the `from .db import ...`
on line 11 resolves. -/
def mainModuleLoads : Bool :=
  (fromImport dbModuleNames mainImportsFromDb).toBool

/-! ## Column declarations of the `tasks` table (claim C5)

The options passed to `mapped_column` for the two identifier columns in
`src/app/models.py` lines 57-58. -/

/-- Options of a SQLAlchemy `mapped_column` call relevant to uniqueness. -/
structure ColumnSpec where
  primary_key : Bool
  nullable : Bool
  unique : Bool
  deriving Repr, DecidableEq

/-- `models.py` line 57: `id = mapped_column(String, primary_key=True, index=True, default=...)`.
A primary key is implicitly unique and non-nullable. -/
def idColumn : ColumnSpec := { primary_key := true, nullable := false, unique := true }

/-- `models.py` line 58: `task_id = mapped_column(String, nullable=False, default=...)`.
No `unique=True` and no `primary_key=True` is passed. -/
def task_idColumn : ColumnSpec := { primary_key := false, nullable := false, unique := false }

/-- Whether the declared column options force pairwise-distinct values for
that column across the rows of a table. -/
def ColumnSpec.enforcesUnique (c : ColumnSpec) : Bool :=
  c.primary_key || c.unique

/-- The constraint the declared schema places on a `tasks` table: each
column whose options enforce uniqueness has pairwise-distinct values.
Only `id` enforces uniqueness (`task_id` does not), so the schema admits a
table iff its `id` values are distinct. -/
def schemaAdmits (rows : List TaskRow) : Bool :=
  (!idColumn.enforcesUnique || decide (rows.map (fun r => r.id)).Nodup)
    && (!task_idColumn.enforcesUnique || decide (rows.map (fun r => r.task_id)).Nodup)

/-! ## `create_task` endpoint and commit semantics (claim C1) -/

/-- The ways the modelled Python code can fail. -/
inductive PyFailure where
  /-- A `sqlalchemy.exc.IntegrityError` escaping uncaught (FastAPI turns it
  into a 500 response). -/
  | integrityError (msg : String)
  /-- A `fastapi.HTTPException(status_code, detail)`. -/
  | httpException (status : Nat) (detail : String)
  deriving Repr

/-- The `Task(...)` constructor call in `create_task` (`main.py` lines
206-212): status is hard-coded to `PENDING`, `result` takes its column
default `None`, and `id` / `task_id` take their `uuid.uuid4()` column
defaults, passed here as the `genId` / `genTaskId` arguments. -/
def mkDbTask (req : TaskRequest) (genId genTaskId : String) (now : Nat) : TaskRow :=
  { id := genId
    task_id := genTaskId
    service := req.service
    status := RequestStatus.pending
    route := req.route
    method := req.method
    params := req.params
    result := none
    create_at := now }

/-- `db.commit()` after `db.add(row)`: the insert succeeds and appends the
row unless it violates a unique constraint of the schema, in which case the
commit raises `IntegrityError`.  With the declared schema the only unique
constraint is the primary key on `id`. -/
def dbCommitInsert (db : List TaskRow) (row : TaskRow) : Except String (List TaskRow) :=
  if (db.map (fun r => r.id)).contains row.id then
    .error "UNIQUE constraint failed: tasks.id"
  else
    .ok (db ++ [row])

/-- `commit_or_rollback` helper, `main.py` lines 33-38: commits, and on
`IntegrityError` rolls back and raises `HTTPException(409, error_msg)`.
It is defined in the source but never called by any endpoint. -/
def commit_or_rollback (db : List TaskRow) (row : TaskRow) (error_msg : String) :
    Except PyFailure (List TaskRow) :=
  match dbCommitInsert db row with
  | .ok db2 => .ok db2
  | .error _ => .error (.httpException 409 error_msg)

/-- `create_task` endpoint, `main.py` lines 202-219, as written: it builds
the row and calls `db.commit()` directly (NOT `commit_or_rollback`), so an
`IntegrityError` from the commit propagates uncaught; on success it returns
the new row's `task_id`. -/
def create_task (db : List TaskRow) (req : TaskRequest) (genId genTaskId : String)
    (now : Nat) : Except PyFailure (List TaskRow × String) :=
  let db_task := mkDbTask req genId genTaskId now
  match dbCommitInsert db db_task with
  | .ok db2 => .ok (db2, db_task.task_id)
  | .error msg => .error (.integrityError msg)

/-! ## `poll_task` endpoint (claim C9) -/

/-- `TaskStatusResponse` pydantic model from `src/app/models.py`. -/
structure TaskStatusResponse where
  task_id : String
  status : RequestStatus
  result : Option Json
  deriving Repr

/-- `poll_task` endpoint, `main.py` lines 185-200: `SELECT ... WHERE
task_id = :task_id`, take the first row; if none, raise
`HTTPException(404, "Task not found")`; otherwise immediately return the
row's current `task_id`, `status` and `result` (no waiting for a terminal
status).  The error side carries `(status_code, detail)`. -/
def poll_task (db : List TaskRow) (tid : String) :
    Except (Nat × String) TaskStatusResponse :=
  match db.find? (fun t => t.task_id == tid) with
  | none => .error (404, "Task not found")
  | some t => .ok { task_id := t.task_id, status := t.status, result := t.result }

/-! ## HTTP dispatcher (claims C6, C7)

`process_task` (`main.py` lines 40-71) builds an outbound request from the
task, sends it, and normalizes the response.  The downstream response is
embedded as an `HttpResponse` whose `jsonParse` field carries the outcome
of `response.json()` on the body text (`none` when parsing raises). -/

/-- A downstream HTTP response as seen through `httpx`: status code,
headers, raw body text, and the result of attempting `response.json()` on
that body (`none` = the parse raises an exception). -/
structure HttpResponse where
  status_code : Nat
  headers : List (String × String)
  text : String
  jsonParse : Option Json

/-- Exceptions the dispatch of one task can raise inside the worker loop:
`httpx.HTTPStatusError` (carrying the response, and its `str(e)` message)
or any other exception (transport error, timeout, ...), carrying its
`str(e)` message. -/
inductive PyException where
  | httpStatusError (resp : HttpResponse) (msg : String)
  | other (msg : String)

/-- The message `httpx` formats into an `HTTPStatusError` (only its
existence matters to the claims, not its wording). -/
def statusErrorStr (resp : HttpResponse) : String :=
  "HTTP status error for response with status code " ++ toString resp.status_code

/-- `httpx` 2xx success check used by `response.raise_for_status()`. -/
def is2xx (code : Nat) : Bool :=
  decide (200 ≤ code) && decide (code < 300)

/-- `response.raise_for_status()`: raises `httpx.HTTPStatusError` unless
the status code is 2xx. -/
def raise_for_status (resp : HttpResponse) : Except PyException Unit :=
  if is2xx resp.status_code then .ok () else
    .error (.httpStatusError resp (statusErrorStr resp))

/-- An outbound request as handed to `client.request(...)`: the method,
the full URL, and the `params=`/`json=` keyword arguments (query-string
parameters vs JSON body). -/
structure OutboundRequest where
  method : HttpMethod
  url : String
  queryParams : Option (List (String × Json))
  jsonBody : Option (List (String × Json))
  deriving Repr

/-- The request construction of `process_task` (`main.py` lines 42-57):
`full_url = url + "/" + route` where `url` is the base URL of the task's
service, and `params` goes in the URL query when the method is in
`(GET, HEAD, OPTIONS)`, in the JSON body otherwise. -/
def buildRequest (baseUrl : ServiceType → String) (task : TaskRow) : OutboundRequest :=
  let full_url := baseUrl task.service ++ "/" ++ task.route
  if task.method = HttpMethod.GET ∨ task.method = HttpMethod.HEAD
      ∨ task.method = HttpMethod.OPTIONS then
    { method := task.method, url := full_url,
      queryParams := some task.params, jsonBody := none }
  else
    { method := task.method, url := full_url,
      queryParams := none, jsonBody := some task.params }

/-- The headers dictionary `dict(response.headers)` as a JSON object. -/
def headersJson (hs : List (String × String)) : Json :=
  Json.obj (hs.map (fun p => (p.1, Json.str p.2)))

/-- The response normalization of `process_task` (`main.py` lines 59-71):
after `raise_for_status`, HEAD yields status code and headers; OPTIONS
additionally the body text; otherwise the parsed JSON body, with a
status-code/text fallback when the body does not parse. -/
def normalizeResponse (method : HttpMethod) (resp : HttpResponse) :
    Except PyException Json :=
  match raise_for_status resp with
  | .error e => .error e
  | .ok _ =>
    if method = HttpMethod.HEAD then
      .ok (Json.obj [("status_code", Json.num resp.status_code),
                     ("headers", headersJson resp.headers)])
    else if method = HttpMethod.OPTIONS then
      .ok (Json.obj [("status_code", Json.num resp.status_code),
                     ("headers", headersJson resp.headers),
                     ("text", Json.str resp.text)])
    else
      match resp.jsonParse with
      | some v => .ok v
      | none => .ok (Json.obj [("status_code", Json.num resp.status_code),
                               ("text", Json.str resp.text)])

/-- `process_task` (`main.py` lines 40-71): build the outbound request,
obtain the downstream's response for it (`respond` stands for the network
round-trip), and normalize. -/
def process_task (baseUrl : ServiceType → String)
    (respond : OutboundRequest → HttpResponse) (task : TaskRow) :
    Except PyException Json :=
  normalizeResponse task.method (respond (buildRequest baseUrl task))

/-- The result normalization as claim C6 words it, for comparison with
`normalizeResponse`: on 2xx, HEAD gives status code and headers, OPTIONS
gives status code, headers and raw body, any other method gives the parsed
JSON value when the body parses and a status-code/text object when it does
not; on non-2xx a typed HTTP-status error is raised. -/
def claimNormalization (method : HttpMethod) (resp : HttpResponse) :
    Except PyException Json :=
  if is2xx resp.status_code then
    match method with
    | HttpMethod.HEAD =>
      .ok (Json.obj [("status_code", Json.num resp.status_code),
                     ("headers", headersJson resp.headers)])
    | HttpMethod.OPTIONS =>
      .ok (Json.obj [("status_code", Json.num resp.status_code),
                     ("headers", headersJson resp.headers),
                     ("text", Json.str resp.text)])
    | _ =>
      match resp.jsonParse with
      | some v => .ok v
      | none => .ok (Json.obj [("status_code", Json.num resp.status_code),
                               ("text", Json.str resp.text)])
  else
    .error (.httpStatusError resp (statusErrorStr resp))

/-- The request construction as claim C7 words it, for comparison with
`buildRequest`: URL is `base(service) + "/" + route`; GET, HEAD and
OPTIONS carry `params` as URL query parameters; POST, PUT, DELETE and
PATCH carry `params` as a JSON request body. -/
def claimRequest (baseUrl : ServiceType → String) (task : TaskRow) : OutboundRequest :=
  let url := baseUrl task.service ++ "/" ++ task.route
  match task.method with
  | HttpMethod.GET | HttpMethod.HEAD | HttpMethod.OPTIONS =>
    { method := task.method, url := url,
      queryParams := some task.params, jsonBody := none }
  | HttpMethod.POST | HttpMethod.PUT | HttpMethod.DELETE | HttpMethod.PATCH =>
    { method := task.method, url := url,
      queryParams := none, jsonBody := some task.params }

/-! ## Worker loop (claims C3, C8, C10)

`task_worker` (`main.py` lines 74-137): claim one pending task in a
transaction, dispatch it, finalize it as SUCCESS or FAILED.  The set of
rows currently locked by other workers' in-flight claim transactions is
passed as `locked`; `FOR UPDATE SKIP LOCKED` returns only unlocked rows
without blocking. -/

/-- SQLAlchemy JSON-column storage of a Python value: the Python constant
`None` (JSON `null`) is stored as SQL `NULL`, every other value as its
JSON serialization. -/
def storeJson : Json → Option Json
  | Json.null => none
  | v => some v

/-- The rows the claim query's WHERE clause and lock mode can return:
`status == PENDING` (the `.filter`) and not locked by another transaction
(`FOR UPDATE SKIP LOCKED` skips locked rows instead of blocking). -/
def pendingUnlocked (db : List TaskRow) (locked : List String) : List TaskRow :=
  db.filter (fun t => decide (t.status = RequestStatus.pending) && !(locked.contains t.id))

/-- `ORDER BY create_at LIMIT 1` over a candidate list: the row with the
least `create_at`, the earlier-listed row on ties (a stable sort's first
element), `none` on an empty list. -/
def selectFirst : List TaskRow → Option TaskRow
  | [] => none
  | t :: ts =>
    match selectFirst ts with
    | none => some t
    | some u => if t.create_at ≤ u.create_at then some t else some u

/-- `UPDATE tasks SET status = st WHERE id = i` (the ORM flush of
`task.status = RequestStatus.PROCESSING`). -/
def setStatusById (db : List TaskRow) (i : String) (st : RequestStatus) : List TaskRow :=
  db.map (fun r => if r.id == i then { r with status := st } else r)

/-- The finalize UPDATE of the worker (`main.py` lines 98-107, 115-124,
127-136): `UPDATE tasks SET status = st, result = res WHERE id = i`. -/
def finalizeById (db : List TaskRow) (i : String) (st : RequestStatus)
    (res : Option Json) : List TaskRow :=
  db.map (fun r => if r.id == i then { r with status := st, result := res } else r)

/-- The claim transaction of `task_worker` (`main.py` lines 77-92): select
the first row by `create_at` among pending unlocked rows (LIMIT 1 under
FOR UPDATE SKIP LOCKED); if none, return `None` leaving the table
unchanged; otherwise set that row's status to PROCESSING within the same
transaction and return the (updated) row object. -/
def claimOnePending (db : List TaskRow) (locked : List String) :
    Option TaskRow × List TaskRow :=
  match selectFirst (pendingUnlocked db locked) with
  | none => (none, db)
  | some t => (some { t with status := RequestStatus.processing },
               setStatusById db t.id RequestStatus.processing)

/-- The FAILED-result computation of the worker's two exception handlers
(`main.py` lines 108-113 and 126-133): for `httpx.HTTPStatusError`, try
`e.response.json()` and fall back to a `detail` object holding `str(e)`;
for any other exception, a `detail` object holding `str(e)`. -/
def error_detail : PyException → Json
  | .httpStatusError resp msg =>
    match resp.jsonParse with
    | some v => v
    | none => Json.obj [("detail", Json.str msg)]
  | .other msg => Json.obj [("detail", Json.str msg)]

/-- One pass of the `while True` body of `task_worker` (`main.py` lines
76-137).  `dispatch` stands for the awaited `process_task(task)` call and
whatever exception it raises.  The returned `Bool` is whether the loop
continues to the next iteration (it always does: the empty-queue branch
sleeps 0.3s and continues, and both exception handlers finalize the task
as FAILED and fall through to the next iteration). -/
def workerIteration (db : List TaskRow) (locked : List String)
    (dispatch : TaskRow → Except PyException Json) : List TaskRow × Bool :=
  match claimOnePending db locked with
  | (none, db2) => (db2, true)
  | (some task, db2) =>
    match dispatch task with
    | .ok task_result =>
      (finalizeById db2 task.id RequestStatus.success (storeJson task_result), true)
    | .error e =>
      (finalizeById db2 task.id RequestStatus.failed (storeJson (error_detail e)), true)

/-- The failure detail as claim C8 words it, for comparison with
`error_detail`: on an HTTP-status error, the downstream response body
parsed as JSON, or a `detail` object wrapping the error message when the
body does not parse; on any other exception, a `detail` object wrapping
the message. -/
def claimFailureDetail : PyException → Json
  | .httpStatusError resp msg =>
    match resp.jsonParse with
    | some body => body
    | none => Json.obj [("detail", Json.str msg)]
  | .other msg => Json.obj [("detail", Json.str msg)]

/-! ## System transition model (claims C4, C5, C10)

The operations that touch the `tasks` table, as a labelled transition
system over the table plus the multiset of claims currently held by
workers.  A worker holds a claim from the moment its claim transaction
commits (row set to PROCESSING) until its finalize UPDATE for that row
commits; the worker control flow (`main.py` lines 76-137) performs exactly
one finalize per claim, keyed by the claimed row's `id`. -/

/-- The shared state: the `tasks` table and the `id`s of rows currently
claimed by some worker (claimed, not yet finalized). -/
structure SysState where
  tasks : List TaskRow
  claims : List String

/-- The initial state: empty table, no worker mid-task. -/
def initState : SysState := { tasks := [], claims := [] }

/-- The events that mutate the table: a `create_task` insert committing
successfully, a worker's claim transaction, and a worker's finalize UPDATE
for a row it claimed. -/
inductive SysEvent where
  /-- A successful `create_task` request: the row built by `mkDbTask`
  commits (so its generated `id` was fresh). -/
  | create (req : TaskRequest) (genId genTaskId : String) (now : Nat)
  /-- One worker's claim transaction, with `locked` the rows locked by
  other in-flight transactions at that moment. -/
  | claim (locked : List String)
  /-- The claiming worker's finalize UPDATE for row `i`: terminal status
  `st` (SUCCESS on normal return, FAILED in both exception handlers) and
  the Python result value `res` stored into the JSON column. -/
  | finalize (i : String) (st : RequestStatus) (res : Json)

/-- One step of the system.  `none` means the event is not enabled:
a create whose fresh `id` collides does not commit (claim C1 covers that
path), and a finalize happens only for a row the worker has claimed, with
a terminal status. -/
def step (s : SysState) : SysEvent → Option SysState
  | .create req genId genTaskId now =>
    if (s.tasks.map (fun r => r.id)).contains genId then none
    else some { s with tasks := s.tasks ++ [mkDbTask req genId genTaskId now] }
  | .claim locked =>
    match claimOnePending s.tasks locked with
    | (none, _) => some s
    | (some t, tasks2) => some { tasks := tasks2, claims := t.id :: s.claims }
  | .finalize i st res =>
    if s.claims.contains i
        && (decide (st = RequestStatus.success) || decide (st = RequestStatus.failed)) then
      some { tasks := finalizeById s.tasks i st (storeJson res),
             claims := s.claims.erase i }
    else none

/-- The states the system can reach from the empty initial state. -/
inductive Reachable : SysState → Prop
  | init : Reachable initState
  | next (s s2 : SysState) (e : SysEvent) :
      Reachable s → step s e = some s2 → Reachable s2

/-- The status of the row with id `i` (the table's ids are kept distinct
by the invariant below, so `find?` is unambiguous). -/
def statusOf (s : SysState) (i : String) : Option RequestStatus :=
  (s.tasks.find? (fun r => r.id == i)).map (fun r => r.status)

/-- The status edges the spec's state machine allows: PENDING →
PROCESSING → SUCCESS / FAILED. -/
def allowedEdge (a b : RequestStatus) : Bool :=
  match a, b with
  | RequestStatus.pending, RequestStatus.processing => true
  | RequestStatus.processing, RequestStatus.success => true
  | RequestStatus.processing, RequestStatus.failed => true
  | _, _ => false

/-- The inductive invariant of the system: table ids are pairwise
distinct, held claims are pairwise distinct, every held claim points at a
PROCESSING row, and every non-terminal row has a NULL result. -/
def Inv (s : SysState) : Prop :=
  (s.tasks.map (fun r => r.id)).Nodup ∧
  s.claims.Nodup ∧
  (∀ i, i ∈ s.claims →
    ∃ r, r ∈ s.tasks ∧ r.id = i ∧ r.status = RequestStatus.processing) ∧
  (∀ r, r ∈ s.tasks →
    (r.status = RequestStatus.pending ∨ r.status = RequestStatus.processing) →
    r.result = none)

/-! ## Concrete inputs used by witnesses and counterexamples -/

/-- A representative create-task request (the spec's §8 scenario 1). -/
def reqUser : TaskRequest :=
  { service := ServiceType.user
    route := "create-user"
    params := [("name", Json.str "Sean"), ("email", Json.str "sean@example.com")]
    method := HttpMethod.POST }

/-- A representative payment request. -/
def reqPayment : TaskRequest :=
  { service := ServiceType.payment
    route := "charge"
    params := [("amount", Json.str "12.50"), ("currency", Json.str "EUR")]
    method := HttpMethod.POST }

/-- A row already present in the table for the C1 scenario. -/
def c1Existing : TaskRow := mkDbTask reqUser "id-0" "tid-0" 0

/-- A pending row used by the C3 witness (later creation time). -/
def c3RowLate : TaskRow := mkDbTask reqUser "id-3b" "tid-3b" 7

/-- A pending row used by the C3 witness (earlier creation time, listed
second to exercise the ORDER BY). -/
def c3RowEarly : TaskRow := mkDbTask reqPayment "id-3a" "tid-3a" 2

/-- The table for the C3 witness. -/
def c3Db : List TaskRow := [c3RowLate, c3RowEarly]

/-- A 404-free row for the C9 witness: a freshly created (PENDING) task. -/
def c9Row : TaskRow := mkDbTask reqPayment "id-9" "tid-9" 5

/-- A pending row for the C8 witness. -/
def c8Row : TaskRow := mkDbTask reqUser "id-8" "tid-8" 4

/-- A dispatch outcome for the C8 witness: a transport-level exception. -/
def c8Dispatch : TaskRow → Except PyException Json :=
  fun _ => Except.error (PyException.other "boom")

/-- The request used by the C5 counterexample (both inserts). -/
def c5Req : TaskRequest :=
  { service := ServiceType.flight, route := "book"
    params := [("flight_id", Json.str "f1")], method := HttpMethod.POST }

/-- First inserted row of the C5 counterexample. -/
def c5RowA : TaskRow := mkDbTask c5Req "id-A" "tid-dup" 0

/-- Second inserted row of the C5 counterexample: fresh `id`, same
`task_id`. -/
def c5RowB : TaskRow := mkDbTask c5Req "id-B" "tid-dup" 1

/-- State after the first C5 insert. -/
def c5Mid : SysState := { tasks := [c5RowA], claims := [] }

/-- State after both C5 inserts: two rows sharing `task_id`. -/
def c5State : SysState := { tasks := [c5RowA, c5RowB], claims := [] }

/-- The row created in the C10 runs. -/
def c10Row : TaskRow := mkDbTask reqUser "id-10" "tid-10" 0

/-- C10 run, after the create event. -/
def c10S1 : SysState := { tasks := [c10Row], claims := [] }

/-- C10 run, after the claim event. -/
def c10S2 : SysState :=
  { tasks := [{ c10Row with status := RequestStatus.processing }], claims := ["id-10"] }

/-- The row the C10 counterexample run finalizes: SUCCESS with a NULL
result (the downstream 2xx body was the JSON literal `null`). -/
def c10FinalRow : TaskRow :=
  { c10Row with status := RequestStatus.success, result := none }

/-- C10 counterexample run, after finalizing with the parsed value of a
`null` body. -/
def c10S3 : SysState := { tasks := [c10FinalRow], claims := [] }

/-- A successfully finalized row with a non-null result, for the C10
amended witness. -/
def c10GoodRow : TaskRow :=
  { c10Row with status := RequestStatus.success, result := some (Json.bool true) }

/-- C10 amended-witness run, after finalizing with a non-null payload. -/
def c10S3good : SysState := { tasks := [c10GoodRow], claims := [] }

/-! ## Helper lemmas -/

theorem selectFirst_isSome (a : TaskRow) (xs : List TaskRow) :
    (selectFirst (a :: xs)).isSome = true := by
  simp only [selectFirst]
  cases selectFirst xs with
  | none => rfl
  | some u =>
    by_cases hc : a.create_at ≤ u.create_at <;> simp [hc]

theorem selectFirst_eq_none (l : List TaskRow) (h : selectFirst l = none) : l = [] := by
  cases l with
  | nil => rfl
  | cons a xs => exact absurd (h ▸ selectFirst_isSome a xs) (by simp)

theorem selectFirst_mem :
    ∀ (l : List TaskRow) (t : TaskRow), selectFirst l = some t → t ∈ l := by
  intro l
  induction l with
  | nil => intro t h; simp [selectFirst] at h
  | cons a xs ih =>
    intro t h
    cases hx : selectFirst xs with
    | none =>
      simp only [selectFirst, hx, Option.some.injEq] at h
      exact h ▸ List.mem_cons_self a xs
    | some u =>
      simp only [selectFirst, hx] at h
      by_cases hc : a.create_at ≤ u.create_at
      · rw [if_pos hc] at h
        simp only [Option.some.injEq] at h
        exact h ▸ List.mem_cons_self a xs
      · rw [if_neg hc] at h
        simp only [Option.some.injEq] at h
        exact List.mem_cons_of_mem a (h ▸ ih u hx)

theorem selectFirst_min :
    ∀ (l : List TaskRow) (t : TaskRow), selectFirst l = some t →
      ∀ u, u ∈ l → t.create_at ≤ u.create_at := by
  intro l
  induction l with
  | nil => intro t h; simp [selectFirst] at h
  | cons a xs ih =>
    intro t h u hu
    cases hx : selectFirst xs with
    | none =>
      simp only [selectFirst, hx, Option.some.injEq] at h
      have hnil := selectFirst_eq_none xs hx
      subst hnil
      have hua : u = a := List.mem_singleton.mp hu
      subst hua
      exact Nat.le_of_eq (congrArg TaskRow.create_at h.symm)
    | some v =>
      simp only [selectFirst, hx] at h
      rcases List.mem_cons.mp hu with rfl | hu2
      · by_cases hc : u.create_at ≤ v.create_at
        · rw [if_pos hc] at h
          simp only [Option.some.injEq] at h
          exact Nat.le_of_eq (congrArg TaskRow.create_at h.symm)
        · rw [if_neg hc] at h
          simp only [Option.some.injEq] at h
          exact h ▸ Nat.le_of_lt (Nat.lt_of_not_le hc)
      · by_cases hc : a.create_at ≤ v.create_at
        · rw [if_pos hc] at h
          simp only [Option.some.injEq] at h
          exact h ▸ Nat.le_trans hc (ih v hx u hu2)
        · rw [if_neg hc] at h
          simp only [Option.some.injEq] at h
          exact h ▸ ih v hx u hu2

theorem mem_pendingUnlocked (db : List TaskRow) (locked : List String) (t : TaskRow) :
    t ∈ pendingUnlocked db locked ↔
      t ∈ db ∧ t.status = RequestStatus.pending ∧ locked.contains t.id = false := by
  simp [pendingUnlocked, List.mem_filter, and_assoc]

theorem find_id_map (g : TaskRow → TaskRow) (hg : ∀ r, (g r).id = r.id)
    (db : List TaskRow) (i : String) :
    (db.map g).find? (fun r => r.id == i) =
      (db.find? (fun r => r.id == i)).map g := by
  induction db with
  | nil => rfl
  | cons a l ih =>
    simp only [List.map_cons, List.find?_cons, hg a]
    cases h : a.id == i <;> simp [ih]

theorem find_id_append (l1 l2 : List TaskRow) (i : String) :
    (l1 ++ l2).find? (fun r => r.id == i) =
      ((l1.find? (fun r => r.id == i)).or (l2.find? (fun r => r.id == i))) := by
  induction l1 with
  | nil => rfl
  | cons a l ih =>
    rw [List.cons_append]
    simp only [List.find?_cons]
    cases h : a.id == i <;> simp [ih]

theorem find_eq_self_of_nodup (db : List TaskRow)
    (hn : (db.map (fun r => r.id)).Nodup) (r : TaskRow) (hr : r ∈ db) :
    db.find? (fun u => u.id == r.id) = some r := by
  induction db with
  | nil => cases hr
  | cons a l ih =>
    rw [List.map_cons, List.nodup_cons] at hn
    rcases List.mem_cons.mp hr with rfl | hr2
    · exact List.find?_cons_of_pos _ (by simp)
    · have ha : a.id ≠ r.id := by
        intro he
        exact hn.1 (he ▸ List.mem_map_of_mem (fun u => u.id) hr2)
      rw [List.find?_cons_of_neg _ (by simpa using ha)]
      exact ih hn.2 hr2

theorem eq_of_mem_of_id_eq (db : List TaskRow)
    (hn : (db.map (fun r => r.id)).Nodup) (r u : TaskRow)
    (hr : r ∈ db) (hu : u ∈ db) (hid : r.id = u.id) : r = u := by
  have h1 := find_eq_self_of_nodup db hn r hr
  have h2 := find_eq_self_of_nodup db hn u hu
  rw [hid] at h1
  exact Option.some.inj (h1.symm.trans h2)

theorem setStatusById_id (db : List TaskRow) (i : String) (st : RequestStatus)
    (j : String) :
    (setStatusById db i st).find? (fun r => r.id == j) =
      (db.find? (fun r => r.id == j)).map
        (fun r => if r.id == i then { r with status := st } else r) := by
  refine find_id_map _ (fun r => ?_) db j
  by_cases h : (r.id == i) = true <;> simp [h]

theorem finalizeById_id (db : List TaskRow) (i : String) (st : RequestStatus)
    (res : Option Json) (j : String) :
    (finalizeById db i st res).find? (fun r => r.id == j) =
      (db.find? (fun r => r.id == j)).map
        (fun r => if r.id == i then { r with status := st, result := res } else r) := by
  refine find_id_map _ (fun r => ?_) db j
  by_cases h : (r.id == i) = true <;> simp [h]

theorem claimOnePending_none (db : List TaskRow) (locked : List String)
    (h : selectFirst (pendingUnlocked db locked) = none) :
    claimOnePending db locked = (none, db) := by
  simp [claimOnePending, h]

theorem claimOnePending_spec (db : List TaskRow) (locked : List String) (t : TaskRow)
    (h : selectFirst (pendingUnlocked db locked) = some t) :
    t ∈ db ∧ t.status = RequestStatus.pending ∧ locked.contains t.id = false ∧
    (∀ u, u ∈ db → u.status = RequestStatus.pending → locked.contains u.id = false →
      t.create_at ≤ u.create_at) ∧
    claimOnePending db locked =
      (some { t with status := RequestStatus.processing },
       setStatusById db t.id RequestStatus.processing) := by
  have hm := (mem_pendingUnlocked db locked t).mp (selectFirst_mem _ t h)
  refine ⟨hm.1, hm.2.1, hm.2.2, ?_, ?_⟩
  · intro u hu hp hl
    exact selectFirst_min _ t h u ((mem_pendingUnlocked db locked u).mpr ⟨hu, hp, hl⟩)
  · simp [claimOnePending, h]

theorem map_id_of_preserve (g : TaskRow → TaskRow) (hg : ∀ r, (g r).id = r.id)
    (db : List TaskRow) :
    (db.map g).map (fun r => r.id) = db.map (fun r => r.id) := by
  induction db with
  | nil => rfl
  | cons a l ih => simp only [List.map_cons, hg a, ih]

theorem setStatusById_ids (db : List TaskRow) (i : String) (st : RequestStatus) :
    (setStatusById db i st).map (fun r => r.id) = db.map (fun r => r.id) := by
  refine map_id_of_preserve _ (fun r => ?_) db
  by_cases h : (r.id == i) = true <;> simp [h]

theorem finalizeById_ids (db : List TaskRow) (i : String) (st : RequestStatus)
    (res : Option Json) :
    (finalizeById db i st res).map (fun r => r.id) = db.map (fun r => r.id) := by
  refine map_id_of_preserve _ (fun r => ?_) db
  by_cases h : (r.id == i) = true <;> simp [h]

theorem inv_init : Inv initState := by
  refine ⟨List.nodup_nil, List.nodup_nil, ?_, ?_⟩
  · intro i hi; cases hi
  · intro r hr; cases hr

theorem inv_step (s s2 : SysState) (e : SysEvent) (hinv : Inv s)
    (hstep : step s e = some s2) : Inv s2 := by
  obtain ⟨hids, hclaims, hclaimrows, hresult⟩ := hinv
  cases e with
  | create req genId genTaskId now =>
    simp only [step] at hstep
    by_cases hc : ((s.tasks.map (fun r => r.id)).contains genId) = true
    · rw [if_pos hc] at hstep; cases hstep
    · rw [if_neg hc] at hstep
      have hs2 := (Option.some.inj hstep).symm
      subst hs2
      have hfresh : genId ∉ s.tasks.map (fun r => r.id) := by
        simpa using hc
      refine ⟨?_, hclaims, ?_, ?_⟩
      · rw [List.map_append]
        refine List.Nodup.append hids (List.nodup_singleton _) ?_
        intro a ha hb
        rw [List.mem_map] at hb
        obtain ⟨r, hr, hrid⟩ := hb
        have : r = mkDbTask req genId genTaskId now := List.mem_singleton.mp hr
        subst this
        have hga : genId = a := hrid
        exact hfresh (hga ▸ ha)
      · intro i hi
        obtain ⟨r, hr, hrid, hrst⟩ := hclaimrows i hi
        exact ⟨r, List.mem_append_left _ hr, hrid, hrst⟩
      · intro r hr hst
        rcases List.mem_append.mp hr with hr1 | hr2
        · exact hresult r hr1 hst
        · have : r = mkDbTask req genId genTaskId now := List.mem_singleton.mp hr2
          subst this
          rfl
  | claim locked =>
    simp only [step] at hstep
    cases hsel : selectFirst (pendingUnlocked s.tasks locked) with
    | none =>
      rw [claimOnePending_none _ _ hsel] at hstep
      have hs2 := (Option.some.inj hstep).symm
      subst hs2
      exact ⟨hids, hclaims, hclaimrows, hresult⟩
    | some t =>
      obtain ⟨htmem, htpend, _, _, heq⟩ := claimOnePending_spec _ _ t hsel
      rw [heq] at hstep
      have hs2 := (Option.some.inj hstep).symm
      subst hs2
      have hne : t.id ∉ s.claims := by
        intro hin
        obtain ⟨r, hr, hrid, hrst⟩ := hclaimrows t.id hin
        have : r = t := eq_of_mem_of_id_eq s.tasks hids r t hr htmem hrid
        subst this
        rw [htpend] at hrst
        cases hrst
      refine ⟨?_, List.nodup_cons.mpr ⟨hne, hclaims⟩, ?_, ?_⟩
      · rw [setStatusById_ids]; exact hids
      · intro i hi
        rcases List.mem_cons.mp hi with rfl | hi2
        · refine ⟨{ t with status := RequestStatus.processing }, ?_, rfl, rfl⟩
          have := List.mem_map_of_mem
            (fun r => if r.id == t.id then { r with status := RequestStatus.processing } else r)
            htmem
          simpa [setStatusById] using this
        · obtain ⟨r, hr, hrid, hrst⟩ := hclaimrows i hi2
          have hrne : (r.id == t.id) = false := by
            apply beq_false_of_ne
            intro he
            have : r = t := eq_of_mem_of_id_eq s.tasks hids r t hr htmem he
            subst this
            rw [htpend] at hrst
            cases hrst
          refine ⟨r, ?_, hrid, hrst⟩
          have := List.mem_map_of_mem
            (fun u => if u.id == t.id then { u with status := RequestStatus.processing } else u)
            hr
          simpa [setStatusById, hrne] using this
      · intro r2 hr2 hst2
        simp only [setStatusById, List.mem_map] at hr2
        obtain ⟨r, hr, hrdef⟩ := hr2
        by_cases hb : (r.id == t.id) = true
        · rw [if_pos hb] at hrdef
          have : r = t := eq_of_mem_of_id_eq s.tasks hids r t hr htmem (eq_of_beq hb)
          subst this
          have : r.result = none := hresult r hr (Or.inl htpend)
          rw [← hrdef]
          exact this
        · rw [if_neg hb] at hrdef
          subst hrdef
          exact hresult r hr hst2
  | finalize i st res =>
    simp only [step] at hstep
    by_cases hc : (s.claims.contains i
        && (decide (st = RequestStatus.success) || decide (st = RequestStatus.failed))) = true
    · rw [if_pos hc] at hstep
      have hs2 := (Option.some.inj hstep).symm
      subst hs2
      rw [Bool.and_eq_true] at hc
      have hterm : st = RequestStatus.success ∨ st = RequestStatus.failed := by
        rcases Bool.or_eq_true _ _ |>.mp hc.2 with h | h
        · exact Or.inl (of_decide_eq_true h)
        · exact Or.inr (of_decide_eq_true h)
      refine ⟨?_, List.Nodup.erase i hclaims, ?_, ?_⟩
      · rw [finalizeById_ids]; exact hids
      · intro j hj
        have hj2 := (List.Nodup.mem_erase_iff hclaims).mp hj
        obtain ⟨r, hr, hrid, hrst⟩ := hclaimrows j hj2.2
        have hrne : (r.id == i) = false := by
          apply beq_false_of_ne
          intro he
          exact hj2.1 (hrid ▸ he)
        refine ⟨r, ?_, hrid, hrst⟩
        have := List.mem_map_of_mem
          (fun u => if u.id == i then { u with status := st, result := storeJson res } else u)
          hr
        simpa [finalizeById, hrne] using this
      · intro r2 hr2 hst2
        simp only [finalizeById, List.mem_map] at hr2
        obtain ⟨r, hr, hrdef⟩ := hr2
        by_cases hb : (r.id == i) = true
        · rw [if_pos hb] at hrdef
          rw [← hrdef] at hst2
          rcases hterm with rfl | rfl <;> rcases hst2 with h | h <;> cases h
        · rw [if_neg hb] at hrdef
          subst hrdef
          exact hresult r hr hst2
    · rw [if_neg hc] at hstep
      cases hstep

theorem reachable_inv (s : SysState) (h : Reachable s) : Inv s := by
  induction h with
  | init => exact inv_init
  | next s s2 e _ hstep ih => exact inv_step s s2 e ih hstep

theorem normalize_eq_claim (method : HttpMethod) (resp : HttpResponse) :
    normalizeResponse method resp = claimNormalization method resp := by
  by_cases h2 : is2xx resp.status_code = true
  · cases method <;> cases hj : resp.jsonParse <;>
      simp [normalizeResponse, claimNormalization, raise_for_status, h2, hj]
  · cases method <;>
      simp [normalizeResponse, claimNormalization, raise_for_status, h2]

/-! ## Claim theorems -/

/-- C1 (code bug): a `create-task` insert that violates a unique
constraint does NOT surface as a 409 CONFLICT: `create_task` as written
commits directly and lets the `IntegrityError` escape uncaught (an HTTP
500), while the `commit_or_rollback` helper that maps it to
`HTTPException(409, ...)` is defined in `main.py` but never called.  At a
concrete colliding input the endpoint yields the raw `IntegrityError`
(and persists nothing — the error carries no new table state), whereas
routing the same commit through `commit_or_rollback` would have produced
the 409 the claim and the spec describe. -/
theorem c1_conflict_not_409 :
    create_task [c1Existing] reqUser "id-0" "tid-1" 1 =
      Except.error (PyFailure.integrityError "UNIQUE constraint failed: tasks.id") ∧
    commit_or_rollback [c1Existing] (mkDbTask reqUser "id-0" "tid-1" 1) "Task already exists" =
      Except.error (PyFailure.httpException 409 "Task already exists") :=
  ⟨rfl, rfl⟩

/-- C2 (confirmed): `src/app/main.py` line 11 imports `async_engine` from
`src/app/db.py`, but `db.py` binds only `engine`, `session_local` and
`async_session` (plus its own imports and config names) and no
`async_engine`, so evaluating the import of the main module raises
`ImportError` and the module never loads — no endpoint or worker can run
against this `db` module as written. -/
theorem c2_import_async_engine_fails :
    "async_engine" ∈ mainImportsFromDb ∧
    "async_engine" ∉ dbModuleNames ∧
    "engine" ∈ dbModuleNames ∧
    "session_local" ∈ dbModuleNames ∧
    "async_session" ∈ dbModuleNames ∧
    fromImport dbModuleNames mainImportsFromDb = Except.error "async_engine" ∧
    mainModuleLoads = false := by
  refine ⟨?_, ?_, ?_, ?_, ?_, rfl, rfl⟩ <;> decide

/-- C9 (confirmed): `GET /tasks/\x7btask_id\x7d` returns 404 with detail
"Task not found" when no row has that `task_id`, and otherwise
immediately returns the found row's `task_id`, current `status` and
`result` — whatever the status is, with no waiting for a terminal
state. -/
theorem c9_poll_task_contract :
    ∀ (db : List TaskRow) (tid : String),
      ((∀ t, t ∈ db → t.task_id ≠ tid) →
        poll_task db tid = Except.error (404, "Task not found")) ∧
      (∀ t, db.find? (fun r => r.task_id == tid) = some t →
        poll_task db tid =
          Except.ok { task_id := t.task_id, status := t.status, result := t.result }) := by
  intro db tid
  constructor
  · intro hnone
    have hfind : db.find? (fun t => t.task_id == tid) = none := by
      rw [List.find?_eq_none]
      intro t ht
      simpa using hnone t ht
    simp [poll_task, hfind]
  · intro t ht
    simp [poll_task, ht]

/-- Witness for C9: on an empty table any lookup is a 404, and a table
holding one freshly created (still PENDING) task answers immediately with
status `pending` and a null result. -/
theorem c9_witness :
    poll_task [] "does-not-exist" = Except.error (404, "Task not found") ∧
    poll_task [c9Row] "tid-9" =
      Except.ok { task_id := "tid-9", status := RequestStatus.pending, result := none } :=
  ⟨(c9_poll_task_contract [] "does-not-exist").1 (fun t ht => absurd ht (List.not_mem_nil t)),
   (c9_poll_task_contract [c9Row] "tid-9").2 c9Row rfl⟩

/-- C7 (confirmed): the dispatcher targets `base(service) + "/" + route`
and serializes `params` as URL query parameters for GET, HEAD and
OPTIONS, and as a JSON request body for POST, PUT, DELETE and PATCH —
`buildRequest` (embedded from `process_task`, `main.py` lines 42-57)
agrees with `claimRequest` (written from the claim) on every task and
base-URL table. -/
theorem c7_request_construction :
    ∀ (baseUrl : ServiceType → String) (task : TaskRow),
      buildRequest baseUrl task = claimRequest baseUrl task := by
  intro baseUrl task
  cases h : task.method <;> simp [buildRequest, claimRequest, h]

/-- C6 (confirmed): for every dispatched task, the dispatcher's result
agrees with the claim's normalization of the downstream response: on 2xx,
HEAD yields `status_code` + `headers`, OPTIONS additionally the raw
`text`, any other method yields the parsed JSON body with a
`status_code`/`text` fallback when the body does not parse; on non-2xx a
typed HTTP-status error is raised instead of returning a result
(`process_task`, `main.py` lines 40-71, versus `claimNormalization`
written from the claim). -/
theorem c6_result_normalization :
    ∀ (baseUrl : ServiceType → String) (respond : OutboundRequest → HttpResponse)
      (task : TaskRow),
      process_task baseUrl respond task =
        claimNormalization task.method (respond (buildRequest baseUrl task)) := by
  intro baseUrl respond task
  exact normalize_eq_claim task.method (respond (buildRequest baseUrl task))

/-- C3 (confirmed): the worker's claim transaction selects at most one
row.  When no PENDING row outside the locked set exists it yields `None`
and leaves the table untouched, and the worker iteration just continues
(after its 300ms sleep); otherwise the selected row is a PENDING row, not
locked by another worker (skip-locked acquisition), of minimal
`create_at` among the claimable rows (ORDER BY `create_at` LIMIT 1), and
its status is set to PROCESSING within the same transaction
(`task_worker`, `main.py` lines 77-92). -/
theorem c3_claim_transaction :
    ∀ (db : List TaskRow) (locked : List String),
      (pendingUnlocked db locked = [] →
        claimOnePending db locked = (none, db) ∧
        ∀ dispatch, workerIteration db locked dispatch = (db, true)) ∧
      (∀ t, selectFirst (pendingUnlocked db locked) = some t →
        t ∈ db ∧ t.status = RequestStatus.pending ∧ locked.contains t.id = false ∧
        (∀ u, u ∈ db → u.status = RequestStatus.pending →
          locked.contains u.id = false → t.create_at ≤ u.create_at) ∧
        claimOnePending db locked =
          (some { t with status := RequestStatus.processing },
           setStatusById db t.id RequestStatus.processing)) := by
  intro db locked
  constructor
  · intro hempty
    have hsel : selectFirst (pendingUnlocked db locked) = none := by
      rw [hempty]; rfl
    have hc := claimOnePending_none db locked hsel
    exact ⟨hc, fun dispatch => by simp [workerIteration, hc]⟩
  · intro t hsel
    exact claimOnePending_spec db locked t hsel

/-- Witness for C3: on a table listing a later-created pending row before
an earlier-created one, the claim picks the earlier row, marks it
PROCESSING in place, and that row's creation time is minimal. -/
theorem c3_witness :
    claimOnePending c3Db [] =
      (some { c3RowEarly with status := RequestStatus.processing },
       setStatusById c3Db c3RowEarly.id RequestStatus.processing) ∧
    c3RowEarly.status = RequestStatus.pending ∧
    c3RowEarly.create_at ≤ c3RowLate.create_at := by
  have h := (c3_claim_transaction c3Db []).2 c3RowEarly rfl
  exact ⟨h.2.2.2.2, h.2.1, h.2.2.2.1 c3RowLate (List.mem_cons_self _ _) rfl rfl⟩

/-- C8 (confirmed): when the dispatch of a claimed task raises, the worker
finalizes that task as FAILED: on an HTTP-status error the recorded
result value is the downstream response body parsed as JSON, falling back
to a detail object wrapping the error message when the body does not
parse, and on any other exception it is a detail object wrapping the
message; in both cases the iteration reports that the loop continues
(`task_worker`, `main.py` lines 94-137; `error_detail` versus
`claimFailureDetail` written from the claim). -/
theorem c8_failure_finalization :
    ∀ (db db2 : List TaskRow) (locked : List String) (task : TaskRow)
      (dispatch : TaskRow → Except PyException Json) (e : PyException),
      claimOnePending db locked = (some task, db2) →
      dispatch task = Except.error e →
      (workerIteration db locked dispatch =
        (finalizeById db2 task.id RequestStatus.failed (storeJson (error_detail e)), true) ∧
       error_detail e = claimFailureDetail e) := by
  intro db db2 locked task dispatch e hclaim hdis
  refine ⟨by simp [workerIteration, hclaim, hdis], ?_⟩
  cases e with
  | httpStatusError resp msg =>
    cases hj : resp.jsonParse <;> simp [error_detail, claimFailureDetail, hj]
  | other msg => rfl

/-- Witness for C8: a transport exception during dispatch of the single
pending row finalizes it as FAILED with a wrapped detail message, and the
loop continues. -/
theorem c8_witness :
    workerIteration [c8Row] [] c8Dispatch =
      (finalizeById [{ c8Row with status := RequestStatus.processing }]
        ({ c8Row with status := RequestStatus.processing }).id
        RequestStatus.failed (storeJson (error_detail (PyException.other "boom"))), true) ∧
    error_detail (PyException.other "boom") =
      claimFailureDetail (PyException.other "boom") :=
  c8_failure_finalization [c8Row] [{ c8Row with status := RequestStatus.processing }] []
    { c8Row with status := RequestStatus.processing } c8Dispatch
    (PyException.other "boom") rfl rfl

/-- C4 (confirmed): along every step the system can take from a reachable
state, each task's status is unchanged, appears fresh as PENDING, or
moves along an edge of PENDING → PROCESSING → SUCCESS / FAILED; no task
is ever deleted, moved backward, or moved sideways.  Hence each task's
observed status sequence is a prefix of the spec's chain. -/
theorem c4_status_transitions :
    ∀ (s s2 : SysState) (e : SysEvent), Reachable s → step s e = some s2 →
      ∀ i : String,
        statusOf s2 i = statusOf s i ∨
        (statusOf s i = none ∧ statusOf s2 i = some RequestStatus.pending) ∨
        (∃ a b, statusOf s i = some a ∧ statusOf s2 i = some b ∧
          allowedEdge a b = true) := by
  intro s s2 e hreach hstep i
  obtain ⟨hids, hclaims, hclaimrows, hresult⟩ := reachable_inv s hreach
  cases e with
  | create req genId genTaskId now =>
    simp only [step] at hstep
    by_cases hc : ((s.tasks.map (fun r => r.id)).contains genId) = true
    · rw [if_pos hc] at hstep; cases hstep
    · rw [if_neg hc] at hstep
      have hs2 := (Option.some.inj hstep).symm
      subst hs2
      simp only [statusOf]
      rw [find_id_append]
      cases hf : s.tasks.find? (fun r => r.id == i) with
      | some r => left; rfl
      | none =>
        by_cases hb : genId = i
        · right; left
          exact ⟨rfl, by simp [List.find?_cons, mkDbTask, hb]⟩
        · left
          simp [List.find?_cons, mkDbTask, hb]
  | claim locked =>
    simp only [step] at hstep
    cases hsel : selectFirst (pendingUnlocked s.tasks locked) with
    | none =>
      rw [claimOnePending_none _ _ hsel] at hstep
      have hs2 := (Option.some.inj hstep).symm
      subst hs2
      left; rfl
    | some t =>
      obtain ⟨htmem, htpend, _, _, heq⟩ := claimOnePending_spec _ _ t hsel
      rw [heq] at hstep
      have hs2 := (Option.some.inj hstep).symm
      subst hs2
      simp only [statusOf]
      rw [setStatusById_id]
      cases hf : s.tasks.find? (fun r => r.id == i) with
      | none => left; rfl
      | some r =>
        by_cases hb : r.id = t.id
        · right; right
          refine ⟨r.status, RequestStatus.processing, rfl, by simp [hb], ?_⟩
          have hrt : r = t := eq_of_mem_of_id_eq s.tasks hids r t
            (List.mem_of_find?_eq_some hf) htmem hb
          rw [hrt, htpend]
          rfl
        · left
          simp [hb]
  | finalize j st res =>
    simp only [step] at hstep
    by_cases hc : (s.claims.contains j
        && (decide (st = RequestStatus.success) || decide (st = RequestStatus.failed))) = true
    · rw [if_pos hc] at hstep
      have hs2 := (Option.some.inj hstep).symm
      subst hs2
      rw [Bool.and_eq_true] at hc
      have hmem : j ∈ s.claims := by simpa using hc.1
      have hterm : st = RequestStatus.success ∨ st = RequestStatus.failed := by
        rcases Bool.or_eq_true _ _ |>.mp hc.2 with h | h
        · exact Or.inl (of_decide_eq_true h)
        · exact Or.inr (of_decide_eq_true h)
      obtain ⟨rq, hrq, hrqid, hrqst⟩ := hclaimrows j hmem
      simp only [statusOf]
      rw [finalizeById_id]
      cases hf : s.tasks.find? (fun r => r.id == i) with
      | none => left; rfl
      | some r =>
        by_cases hb : r.id = j
        · right; right
          refine ⟨r.status, st, rfl, by simp [hb], ?_⟩
          have hrrq : r = rq := eq_of_mem_of_id_eq s.tasks hids r rq
            (List.mem_of_find?_eq_some hf) hrq (hb.trans hrqid.symm)
          rw [hrrq, hrqst]
          rcases hterm with rfl | rfl <;> rfl
        · left
          simp [hb]
    · rw [if_neg hc] at hstep; cases hstep

/-- Witness for C4: the first create step out of the initial state makes
the new task appear with status PENDING. -/
theorem c4_witness :
    statusOf c10S1 "id-10" = statusOf initState "id-10" ∨
    (statusOf initState "id-10" = none ∧
      statusOf c10S1 "id-10" = some RequestStatus.pending) ∨
    (∃ a b, statusOf initState "id-10" = some a ∧ statusOf c10S1 "id-10" = some b ∧
      allowedEdge a b = true) :=
  c4_status_transitions initState c10S1 (SysEvent.create reqUser "id-10" "tid-10" 0)
    Reachable.init rfl "id-10"

/-- Counterexample to C5: `task_id` uniqueness is NOT guaranteed.  The
`task_id` column is declared with `nullable=False` only — no `unique=True`
and no primary key (`models.py` line 58) — so two successful inserts whose
generated uuids collide on `task_id` (but not on `id`) are admitted by the
schema and reach a table holding two distinct rows with equal `task_id`. -/
theorem c5_counterexample :
    step initState (SysEvent.create c5Req "id-A" "tid-dup" 0) = some c5Mid ∧
    step c5Mid (SysEvent.create c5Req "id-B" "tid-dup" 1) = some c5State ∧
    Reachable c5State ∧
    schemaAdmits c5State.tasks = true ∧
    c5RowA ∈ c5State.tasks ∧ c5RowB ∈ c5State.tasks ∧
    c5RowA.id ≠ c5RowB.id ∧
    c5RowA.task_id = c5RowB.task_id ∧
    task_idColumn.enforcesUnique = false := by
  refine ⟨rfl, rfl, ?_, ?_, List.mem_cons_self _ _,
    List.mem_cons_of_mem _ (List.mem_cons_self _ _), ?_, rfl, rfl⟩
  · exact Reachable.next c5Mid c5State (SysEvent.create c5Req "id-B" "tid-dup" 1)
      (Reachable.next initState c5Mid (SysEvent.create c5Req "id-A" "tid-dup" 0)
        Reachable.init rfl) rfl
  · decide
  · decide

/-- C5 (amended): for every pair of distinct rows of a reachable table the
`id` values differ — the primary key on `id` and the insert path guarantee
this, so `id` determines the row; uniqueness of `task_id`, by contrast, is
not enforced by the schema or the insert operation. -/
theorem c5_amended_id_unique :
    ∀ s : SysState, Reachable s →
      (s.tasks.map (fun r => r.id)).Nodup ∧
      ∀ r u, r ∈ s.tasks → u ∈ s.tasks → r.id = u.id → r = u := by
  intro s hreach
  obtain ⟨hids, _, _, _⟩ := reachable_inv s hreach
  exact ⟨hids, fun r u hr hu hid => eq_of_mem_of_id_eq s.tasks hids r u hr hu hid⟩

/-- Witness for the amended C5: the two-row table reached by the
counterexample run still has pairwise-distinct `id` values. -/
theorem c5_amended_witness :
    (c5State.tasks.map (fun r => r.id)).Nodup :=
  (c5_amended_id_unique c5State
    (Reachable.next c5Mid c5State (SysEvent.create c5Req "id-B" "tid-dup" 1)
      (Reachable.next initState c5Mid (SysEvent.create c5Req "id-A" "tid-dup" 0)
        Reachable.init rfl) rfl)).1

/-- Counterexample to C10: a finalize to SUCCESS does NOT always set a
non-null result.  When the downstream 2xx body is the JSON literal
`null`, `response.json()` yields Python `None` and the JSON column stores
SQL NULL, so the run create → claim → finalize-SUCCESS reaches a row with
`status = SUCCESS` and `result = NULL`; one whole worker iteration whose
dispatch returns the parsed `null` produces the same row, refuting the
claimed "result non-null iff terminal" equivalence. -/
theorem c10_counterexample :
    step initState (SysEvent.create reqUser "id-10" "tid-10" 0) = some c10S1 ∧
    step c10S1 (SysEvent.claim []) = some c10S2 ∧
    step c10S2 (SysEvent.finalize "id-10" RequestStatus.success Json.null) = some c10S3 ∧
    Reachable c10S3 ∧
    c10FinalRow ∈ c10S3.tasks ∧
    c10FinalRow.status = RequestStatus.success ∧
    c10FinalRow.result = none ∧
    workerIteration [c10Row] [] (fun _ => Except.ok Json.null) = ([c10FinalRow], true) := by
  refine ⟨rfl, rfl, rfl, ?_, List.mem_cons_self _ _, rfl, rfl, rfl⟩
  exact Reachable.next c10S2 c10S3 (SysEvent.finalize "id-10" RequestStatus.success Json.null)
    (Reachable.next c10S1 c10S2 (SysEvent.claim [])
      (Reachable.next initState c10S1 (SysEvent.create reqUser "id-10" "tid-10" 0)
        Reachable.init rfl) rfl) rfl

/-- C10 (amended): in every reachable table, a non-null `result` occurs
only on rows whose status is SUCCESS or FAILED, and rows still PENDING or
PROCESSING always have a null `result`; a finalize stores the computed
payload, which is null precisely when that payload is JSON `null` (so
terminal rows may carry a null result and the converse direction of the
original claim fails). -/
theorem c10_amended_result_invariant :
    ∀ s : SysState, Reachable s → ∀ r, r ∈ s.tasks →
      (r.result ≠ none →
        (r.status = RequestStatus.success ∨ r.status = RequestStatus.failed)) ∧
      ((r.status = RequestStatus.pending ∨ r.status = RequestStatus.processing) →
        r.result = none) := by
  intro s hreach r hr
  obtain ⟨_, _, _, hresult⟩ := reachable_inv s hreach
  refine ⟨?_, hresult r hr⟩
  intro hne
  cases hst : r.status with
  | pending => exact absurd (hresult r hr (Or.inl hst)) hne
  | processing => exact absurd (hresult r hr (Or.inr hst)) hne
  | success => exact Or.inl rfl
  | failed => exact Or.inr rfl

/-- Witness for the amended C10: a reachable row with a non-null result
is terminal, and a reachable PENDING row has a null result. -/
theorem c10_amended_witness :
    (c10GoodRow.status = RequestStatus.success ∨
      c10GoodRow.status = RequestStatus.failed) ∧
    c10Row.result = none := by
  have h1 : Reachable c10S1 :=
    Reachable.next initState c10S1 (SysEvent.create reqUser "id-10" "tid-10" 0)
      Reachable.init rfl
  have hgood : Reachable c10S3good :=
    Reachable.next c10S2 c10S3good
      (SysEvent.finalize "id-10" RequestStatus.success (Json.bool true))
      (Reachable.next c10S1 c10S2 (SysEvent.claim []) h1 rfl) rfl
  refine ⟨?_, ?_⟩
  · exact (c10_amended_result_invariant c10S3good hgood c10GoodRow
      (List.mem_cons_self _ _)).1 (fun h => Option.noConfusion h)
  · exact (c10_amended_result_invariant c10S1 h1 c10Row
      (List.mem_cons_self _ _)).2 (Or.inl rfl)

end BudgetAir
